import Mathlib

/-
Verification of the dataset-scoped quad-resolution layer
(`src/lib/src/sparql/dataset.rs` of the oxigraph repository).

Shallow embedding conventions:
- lazy iterators of `Result<T, E>` become `List (Except E T)`;
- the persistent store (an external collaborator, consumed through the
  `ReadableEncodedStore` / `StrLookup` traits) becomes a record of functions;
- `RefCell` interior mutability becomes explicit state passing: `insert_str`
  returns the updated view next to the produced identifier;
- `lasso::Rodeo` (external crate) is modelled by its documented contract:
  a table of interned strings, `get_or_intern` idempotent, keys resolving
  back to the interned string.
-/

namespace Oxi

/-- Interner key of the transient string interner (`lasso::Spur`). -/
abbrev Spur := Nat

/-- Opaque persistent-store error. -/
structure StoreError where
  code : Nat
deriving DecidableEq

/-- Evaluation-level error kind; store errors are converted into it at the
boundary (`map_err(|e| e.into())`). -/
inductive EvaluationError where
  | store (e : StoreError)
deriving DecidableEq

/-- Modelled from the spec: the external encoded-term representation,
"one of {IRI, blank node, literal, inlined forms, default-graph sentinel},
parameterized by a string-identifier type for the non-inlined string
payloads"; equality is structural. `namedNode` and `blankNode` carry a
string identifier, `inlineLiteral` stands for the inlined forms that carry
none, `defaultGraph` is the reserved sentinel. -/
inductive EncodedTerm (I : Type) where
  | defaultGraph
  | namedNode (iri_id : I)
  | blankNode (label_id : I)
  | inlineLiteral (value : Nat)
deriving DecidableEq

/-- Modelled from the spec: mapping the string-identifier payloads of a term
(total version, used when re-tagging store results). -/
def EncodedTerm.map_id {I J : Type} (f : I → J) : EncodedTerm I → EncodedTerm J
  | .defaultGraph => .defaultGraph
  | .namedNode i => .namedNode (f i)
  | .blankNode i => .blankNode (f i)
  | .inlineLiteral v => .inlineLiteral v

/-- Modelled from the spec: mapping the string-identifier payloads of a term
by a fallible function, failing when any payload fails (used for the
pattern downgrade of §4.3 Step 1). -/
def EncodedTerm.try_map_id {I J : Type} (f : I → Option J) :
    EncodedTerm I → Option (EncodedTerm J)
  | .defaultGraph => some .defaultGraph
  | .namedNode i => (f i).map .namedNode
  | .blankNode i => (f i).map .blankNode
  | .inlineLiteral v => some (.inlineLiteral v)

/-- Modelled from the spec: the external encoded quad, a 4-tuple of encoded
terms sharing the identifier type. -/
structure EncodedQuad (I : Type) where
  subject : EncodedTerm I
  predicate : EncodedTerm I
  object : EncodedTerm I
  graph_name : EncodedTerm I
deriving DecidableEq

/-- The dual-namespace identifier of `dataset.rs`: a persistent store
identifier or a transient interner handle. -/
inductive DatasetStrId (I : Type) where
  | Store (id : I)
  | Temporary (id : Spur)
deriving DecidableEq

/-- Modelled from the spec: an RDF graph-name term, opaque to this layer
(only handed to the store's encoder). -/
structure GraphName where
  iri : String
deriving DecidableEq

/-- Modelled from the spec: an RDF named-or-blank-node term, opaque to this
layer. -/
structure NamedOrBlankNode where
  label : String
deriving DecidableEq

/-- Modelled from the spec: an RDF IRI term, opaque to this layer. -/
structure NamedNode where
  iri : String
deriving DecidableEq

/-- Modelled from the spec: the structured dataset specification, its own
default/named IRI lists (`DatasetSpec` of `sparql::algebra`). -/
structure DatasetSpec where
  default : List NamedNode
  named : List NamedNode
deriving DecidableEq

/-- Modelled from the spec: emptiness test of the structured dataset
specification. -/
def DatasetSpec.is_empty (d : DatasetSpec) : Bool :=
  d.default.isEmpty && d.named.isEmpty

/-- The persistent store, an external collaborator consumed through the
interface of spec §6: pattern scan and the resolution/string lookups,
each fallible with not-found as `none` rather than an error. -/
structure Store (I : Type) where
  encoded_quads_for_pattern :
    Option (EncodedTerm I) → Option (EncodedTerm I) → Option (EncodedTerm I) →
      Option (EncodedTerm I) → List (Except StoreError (EncodedQuad I))
  get_str : I → Except StoreError (Option String)
  get_str_id : String → Except StoreError (Option I)
  get_encoded_graph_name : GraphName → Except StoreError (Option (EncodedTerm I))
  get_encoded_named_or_blank_node :
    NamedOrBlankNode → Except StoreError (Option (EncodedTerm I))
  get_encoded_named_node : NamedNode → Except StoreError (Option (EncodedTerm I))

/-- First index of a string in a list, the lookup underlying the interner
model. -/
def lookupIdx : List String → String → Option Nat
  | [], _ => none
  | s :: rest, v => if s = v then some 0 else (lookupIdx rest v).map (· + 1)

/-- Modelled from the spec: the transient string interner (`lasso::Rodeo`),
a table assigning small stable handles to strings; a handle is the index of
the string in insertion order. -/
structure Rodeo where
  strings : List String
deriving DecidableEq

/-- The empty interner (`Rodeo::default()`). -/
def Rodeo.default : Rodeo := ⟨[]⟩

/-- Modelled from the spec: `Rodeo::get`, the handle already assigned to a
string, if any. -/
def Rodeo.get (r : Rodeo) (value : String) : Option Spur :=
  lookupIdx r.strings value

/-- Modelled from the spec: `Rodeo::try_resolve`, the string behind a
handle, if any. -/
def Rodeo.try_resolve (r : Rodeo) (id : Spur) : Option String :=
  r.strings.get? id

/-- Modelled from the spec: `Rodeo::get_or_intern` — return the existing
handle of a string, or assign the next fresh handle; also returns the
updated interner state. -/
def Rodeo.get_or_intern (r : Rodeo) (value : String) : Spur × Rodeo :=
  match lookupIdx r.strings value with
  | some i => (i, r)
  | none => (r.strings.length, ⟨r.strings ++ [value]⟩)

/-- The encoded, validated dataset restriction (`EncodedDatasetSpec`). -/
structure EncodedDatasetSpec (I : Type) where
  default : List (EncodedTerm I)
  named : List (EncodedTerm I)
deriving DecidableEq

/-- The dataset view (`DatasetView`): the store, the transient interner,
the union flag and the optional restriction. -/
structure DatasetView (I : Type) where
  store : Store I
  extra : Rodeo
  default_graph_as_union : Bool
  dataset : Option (EncodedDatasetSpec I)

/-- The `flat_map(.. .transpose()).collect::<Result<Vec<_>, _>>()` idiom of
`DatasetView::new`: resolve each term, silently skip not-found (`Ok(None)`),
stop at the first store error. -/
def collectResolved {A B : Type} (f : A → Except StoreError (Option B)) :
    List A → Except StoreError (List B)
  | [] => .ok []
  | a :: rest =>
    match f a with
    | .error e => .error e
    | .ok none => collectResolved f rest
    | .ok (some b) => (collectResolved f rest).map (fun l => b :: l)

/-- `DatasetView::new`: build the optional restriction by precedence
(explicit lists, then the structured dataset specification, then none),
resolving terms against the store and propagating store errors. -/
def DatasetView.new {I : Type} (store : Store I) (default_graph_as_union : Bool)
    (default_graphs : List GraphName) (named_graphs : List NamedOrBlankNode)
    (dataset : DatasetSpec) : Except EvaluationError (DatasetView I) :=
  let encoded : Except EvaluationError (Option (EncodedDatasetSpec I)) :=
    if ¬ default_graphs.isEmpty = true ∨ ¬ named_graphs.isEmpty = true then
      match collectResolved store.get_encoded_graph_name default_graphs with
      | .error e => .error (.store e)
      | .ok dflt =>
        match collectResolved store.get_encoded_named_or_blank_node named_graphs with
        | .error e => .error (.store e)
        | .ok nmd => .ok (some ⟨dflt, nmd⟩)
    else if dataset.is_empty then
      .ok none
    else
      match collectResolved store.get_encoded_named_node dataset.default with
      | .error e => .error (.store e)
      | .ok dflt =>
        match collectResolved store.get_encoded_named_node dataset.named with
        | .error e => .error (.store e)
        | .ok nmd => .ok (some ⟨dflt, nmd⟩)
  encoded.map (fun d => ⟨store, Rodeo.default, default_graph_as_union, d⟩)

/-- `map_iter`: re-tag every store-native result identifier as a `Store`
dual-namespace identifier and convert store errors into evaluation errors
(§4.3 Step 4). -/
def map_iter {I : Type} (l : List (Except StoreError (EncodedQuad I))) :
    List (Except EvaluationError (EncodedQuad (DatasetStrId I))) :=
  l.map (fun t =>
    (t.map (fun q =>
      ⟨q.subject.map_id DatasetStrId.Store, q.predicate.map_id DatasetStrId.Store,
        q.object.map_id DatasetStrId.Store,
        q.graph_name.map_id DatasetStrId.Store⟩)).mapError .store)

/-- `DatasetView::encoded_quads_for_pattern_in_dataset`: the dataset-aware
resolution of §4.3 Step 3, branching on the restriction and the graph
position of the (already downgraded) pattern. -/
def DatasetView.encoded_quads_for_pattern_in_dataset {I : Type} [DecidableEq I]
    (v : DatasetView I) (subject predicate object : Option (EncodedTerm I))
    (graph_name : Option (EncodedTerm I)) :
    List (Except EvaluationError (EncodedQuad (DatasetStrId I))) :=
  match v.dataset with
  | some dataset =>
    match graph_name with
    | some graph_name =>
      if graph_name = EncodedTerm.defaultGraph then
        (map_iter ((dataset.default.map (fun gn =>
            v.store.encoded_quads_for_pattern subject predicate object (some gn))).flatten)).map
          (fun quad => quad.map (fun q =>
            ⟨q.subject, q.predicate, q.object, EncodedTerm.defaultGraph⟩))
      else if graph_name ∈ dataset.named then
        map_iter (v.store.encoded_quads_for_pattern subject predicate object
          (some graph_name))
      else
        []
    | none =>
      map_iter ((dataset.named.map (fun gn =>
        v.store.encoded_quads_for_pattern subject predicate object (some gn))).flatten)
  | none =>
    match graph_name with
    | none =>
      (map_iter (v.store.encoded_quads_for_pattern subject predicate object none)).filter
        (fun quad =>
          match quad with
          | .error _ => true
          | .ok q => decide (q.graph_name ≠ EncodedTerm.defaultGraph))
    | some g =>
      map_iter (v.store.encoded_quads_for_pattern subject predicate object (some g))

/-- `unwrap_store_id`: accept a `Store` identifier, reject a `Temporary`
one (the cheap unwrap-or-reject of §4.3 Step 1). -/
def unwrap_store_id {I : Type} : DatasetStrId I → Option I
  | .Store id => some id
  | .Temporary _ => none

/-- The `transpose` helper of `dataset.rs`: outer `none` is a wildcard
position (kept as `some none`), inner `none` is a failed downgrade
(propagated as `none`). -/
def transpose {T : Type} : Option (Option T) → Option (Option T)
  | some (some v) => some (some v)
  | some none => none
  | none => some none

/-- `try_map_quad_pattern`: downgrade every bound position of a pattern to
store-native identifiers, failing when any bound position carries a
`Temporary` identifier. -/
def try_map_quad_pattern {I : Type} (subject predicate object graph_name :
    Option (EncodedTerm (DatasetStrId I))) :
    Option (Option (EncodedTerm I) × Option (EncodedTerm I) ×
      Option (EncodedTerm I) × Option (EncodedTerm I)) := do
  let s ← transpose (subject.map (fun t => t.try_map_id unwrap_store_id))
  let p ← transpose (predicate.map (fun t => t.try_map_id unwrap_store_id))
  let o ← transpose (object.map (fun t => t.try_map_id unwrap_store_id))
  let g ← transpose (graph_name.map (fun t => t.try_map_id unwrap_store_id))
  some (s, p, o, g)

/-- `ReadableEncodedStore::encoded_quads_for_pattern` for `DatasetView`:
Step 1 pattern downgrade (empty on any bound Temporary), Step 2 union-mode
special case, otherwise Step 3 via
`encoded_quads_for_pattern_in_dataset`. -/
def DatasetView.encoded_quads_for_pattern {I : Type} [DecidableEq I]
    (v : DatasetView I) (subject predicate object graph_name :
      Option (EncodedTerm (DatasetStrId I))) :
    List (Except EvaluationError (EncodedQuad (DatasetStrId I))) :=
  match try_map_quad_pattern subject predicate object graph_name with
  | some (s, p, o, g) =>
    if g = some EncodedTerm.defaultGraph ∧ v.default_graph_as_union = true then
      v.encoded_quads_for_pattern_in_dataset s p o (some EncodedTerm.defaultGraph) ++
        v.encoded_quads_for_pattern_in_dataset s p o none
    else
      v.encoded_quads_for_pattern_in_dataset s p o g
  | none => []

/-- `StrLookup::get_str` for `DatasetView`: dispatch on the tag — `Store`
delegates to the persistent store, `Temporary` to the interner. -/
def DatasetView.get_str {I : Type} (v : DatasetView I) (id : DatasetStrId I) :
    Except EvaluationError (Option String) :=
  match id with
  | .Store id => (v.store.get_str id).mapError .store
  | .Temporary id => .ok (v.extra.try_resolve id)

/-- `StrLookup::get_str_id` for `DatasetView`: the interner first, then the
persistent store. -/
def DatasetView.get_str_id {I : Type} (v : DatasetView I) (value : String) :
    Except EvaluationError (Option (DatasetStrId I)) :=
  match v.extra.get value with
  | some id => .ok (some (.Temporary id))
  | none =>
    ((v.store.get_str_id value).mapError EvaluationError.store).map
      (fun o => o.map .Store)

/-- `StrContainer::insert_str` for `&DatasetView`: the persistent store
first (returning a `Store` identifier with no transient allocation), the
interner otherwise; the `RefCell` mutation is the returned view. -/
def DatasetView.insert_str {I : Type} (v : DatasetView I) (value : String) :
    Except EvaluationError (DatasetStrId I × DatasetView I) :=
  match v.store.get_str_id value with
  | .error e => .error (.store e)
  | .ok (some id) => .ok (.Store id, v)
  | .ok none =>
    let r := v.extra.get_or_intern value
    .ok (.Temporary r.1, { v with extra := r.2 })

/-- A dual-namespace term carries a `Temporary` identifier in its string
payload (the condition making it invisible to the persistent store). -/
def EncodedTerm.hasTemporaryId {I : Type} : EncodedTerm (DatasetStrId I) → Bool
  | .namedNode (.Temporary _) => true
  | .blankNode (.Temporary _) => true
  | _ => false

/-- The interner of a view only holds strings the persistent store does not
know, with no duplicates — the invariant of every reachable view state. -/
def DatasetView.WellFormedInterner {I : Type} (v : DatasetView I) : Prop :=
  v.extra.strings.Nodup ∧ ∀ s ∈ v.extra.strings, v.store.get_str_id s = .ok none

/-- The store's two string-lookup directions are mutually consistent. -/
def Store.StrConsistent {I : Type} (st : Store I) : Prop :=
  ∀ i s, st.get_str i = .ok (some s) → st.get_str_id s = .ok (some i)

/-- A small concrete store over `Nat` identifiers, used to instantiate the
theorems on concrete inputs. -/
def sampleStore : Store Nat where
  encoded_quads_for_pattern := fun _ _ _ g =>
    match g with
    | some (.namedNode 1) =>
      [.ok ⟨.namedNode 10, .namedNode 11, .namedNode 12, .namedNode 1⟩]
    | some (.namedNode 2) =>
      [.ok ⟨.namedNode 20, .namedNode 11, .namedNode 12, .namedNode 2⟩]
    | some .defaultGraph =>
      [.ok ⟨.namedNode 30, .namedNode 11, .namedNode 12, .defaultGraph⟩]
    | none =>
      [.ok ⟨.namedNode 10, .namedNode 11, .namedNode 12, .namedNode 1⟩,
        .ok ⟨.namedNode 30, .namedNode 11, .namedNode 12, .defaultGraph⟩]
    | _ => []
  get_str := fun i => .ok (if i = 5 then some "known" else none)
  get_str_id := fun s => .ok (if s = "known" then some 5 else none)
  get_encoded_graph_name := fun g =>
    .ok (if g.iri = "g1" then some (.namedNode 1) else none)
  get_encoded_named_or_blank_node := fun g =>
    .ok (if g.label = "g1" then some (.namedNode 1) else none)
  get_encoded_named_node := fun n =>
    .ok (if n.iri = "g1" then some (.namedNode 1) else none)

/-- A concrete restriction: graph 3 appears in the default list but not in
the named list, graphs 1 and 2 in both. -/
def sampleRestriction : EncodedDatasetSpec Nat :=
  ⟨[.namedNode 1, .namedNode 3], [.namedNode 1, .namedNode 2]⟩

/-- A view with no restriction configured and union mode off. -/
def sampleView : DatasetView Nat :=
  ⟨sampleStore, Rodeo.default, false, none⟩

/-- A view with `sampleRestriction` configured and union mode off. -/
def sampleViewRestricted : DatasetView Nat :=
  ⟨sampleStore, Rodeo.default, false, some sampleRestriction⟩

/-- A view with `sampleRestriction` configured and union mode on. -/
def sampleViewUnion : DatasetView Nat :=
  ⟨sampleStore, Rodeo.default, true, some sampleRestriction⟩

/-- An unrestricted view whose interner already holds one novel string. -/
def sampleViewInterned : DatasetView Nat :=
  ⟨sampleStore, ⟨["novel"]⟩, false, none⟩

/-- Downgrading a term fails exactly when it carries a `Temporary`
identifier. -/
theorem try_map_unwrap_eq_none {I : Type} (t : EncodedTerm (DatasetStrId I)) :
    t.try_map_id unwrap_store_id = none ↔ t.hasTemporaryId = true := by
  cases t with
  | defaultGraph => simp [EncodedTerm.try_map_id, EncodedTerm.hasTemporaryId]
  | namedNode i =>
    cases i <;> simp [EncodedTerm.try_map_id, EncodedTerm.hasTemporaryId, unwrap_store_id]
  | blankNode i =>
    cases i <;> simp [EncodedTerm.try_map_id, EncodedTerm.hasTemporaryId, unwrap_store_id]
  | inlineLiteral v => simp [EncodedTerm.try_map_id, EncodedTerm.hasTemporaryId]

/-- The pattern downgrade fails whenever some bound position carries a
`Temporary` identifier. -/
theorem try_map_quad_pattern_eq_none {I : Type}
    (subject predicate object graph_name : Option (EncodedTerm (DatasetStrId I)))
    (h : (∃ t, subject = some t ∧ t.hasTemporaryId = true) ∨
      (∃ t, predicate = some t ∧ t.hasTemporaryId = true) ∨
      (∃ t, object = some t ∧ t.hasTemporaryId = true) ∨
      (∃ t, graph_name = some t ∧ t.hasTemporaryId = true)) :
    try_map_quad_pattern subject predicate object graph_name = none := by
  rcases h with ⟨t, hpos, ht⟩ | ⟨t, hpos, ht⟩ | ⟨t, hpos, ht⟩ | ⟨t, hpos, ht⟩ <;> subst hpos
  · simp [try_map_quad_pattern, (try_map_unwrap_eq_none t).mpr ht, transpose]
  · cases hs : transpose (subject.map (fun u => u.try_map_id unwrap_store_id)) <;>
      simp [try_map_quad_pattern, hs, (try_map_unwrap_eq_none t).mpr ht, transpose]
  · cases hs : transpose (subject.map (fun u => u.try_map_id unwrap_store_id)) <;>
      cases hp : transpose (predicate.map (fun u => u.try_map_id unwrap_store_id)) <;>
      simp [try_map_quad_pattern, hs, hp, (try_map_unwrap_eq_none t).mpr ht, transpose]
  · cases hs : transpose (subject.map (fun u => u.try_map_id unwrap_store_id)) <;>
      cases hp : transpose (predicate.map (fun u => u.try_map_id unwrap_store_id)) <;>
      cases ho : transpose (object.map (fun u => u.try_map_id unwrap_store_id)) <;>
      simp [try_map_quad_pattern, hs, hp, ho, (try_map_unwrap_eq_none t).mpr ht, transpose]

/-- Re-tagging identifiers never creates nor destroys the default-graph
sentinel. -/
theorem map_id_eq_defaultGraph {I J : Type} (f : I → J) (t : EncodedTerm I) :
    t.map_id f = EncodedTerm.defaultGraph ↔ t = EncodedTerm.defaultGraph := by
  cases t <;> simp [EncodedTerm.map_id]

/-- C1: for every pattern in which some bound position carries a Temporary
identifier, `encoded_quads_for_pattern` returns the empty sequence, for a
Temporary in the subject, predicate, object or graph position alike. The
theorem quantifies over every view, hence over every store: the (empty)
result does not depend on the store's pattern scan in any way, which is the
observational content of "the store's pattern-scan function is never
invoked". -/
theorem c1_temporary_short_circuit {I : Type} [DecidableEq I] (v : DatasetView I)
    (subject predicate object graph_name : Option (EncodedTerm (DatasetStrId I)))
    (h : (∃ t, subject = some t ∧ t.hasTemporaryId = true) ∨
      (∃ t, predicate = some t ∧ t.hasTemporaryId = true) ∨
      (∃ t, object = some t ∧ t.hasTemporaryId = true) ∨
      (∃ t, graph_name = some t ∧ t.hasTemporaryId = true)) :
    v.encoded_quads_for_pattern subject predicate object graph_name = [] := by
  simp [DatasetView.encoded_quads_for_pattern,
    try_map_quad_pattern_eq_none subject predicate object graph_name h]

/-- Witness for C1: a Temporary identifier in the subject position of a
concrete pattern over a concrete restricted view yields the empty result. -/
theorem c1_temporary_short_circuit_witness :
    ((∃ t, (some (EncodedTerm.namedNode (DatasetStrId.Temporary 0)) :
        Option (EncodedTerm (DatasetStrId Nat))) = some t ∧ t.hasTemporaryId = true) ∨
      (∃ t, (none : Option (EncodedTerm (DatasetStrId Nat))) = some t ∧
        t.hasTemporaryId = true) ∨
      (∃ t, (none : Option (EncodedTerm (DatasetStrId Nat))) = some t ∧
        t.hasTemporaryId = true) ∨
      (∃ t, (none : Option (EncodedTerm (DatasetStrId Nat))) = some t ∧
        t.hasTemporaryId = true)) ∧
    sampleViewRestricted.encoded_quads_for_pattern
      (some (EncodedTerm.namedNode (DatasetStrId.Temporary 0))) none none none = [] :=
  ⟨Or.inl ⟨_, rfl, rfl⟩,
    c1_temporary_short_circuit sampleViewRestricted _ _ _ _ (Or.inl ⟨_, rfl, rfl⟩)⟩

/-- C2: with a restriction configured, a pattern whose graph position is the
default-graph sentinel resolves to the concatenation, in the restriction's
default-graph list order, of the store's scan against each default-graph
term, each yielded quad's graph field relabeled to the sentinel and its
subject, predicate and object unchanged. -/
theorem c2_default_sentinel_relabel {I : Type} [DecidableEq I] (v : DatasetView I)
    (ds : EncodedDatasetSpec I) (hds : v.dataset = some ds)
    (s p o : Option (EncodedTerm I)) :
    v.encoded_quads_for_pattern_in_dataset s p o (some EncodedTerm.defaultGraph) =
      (ds.default.map (fun gn =>
        (map_iter (v.store.encoded_quads_for_pattern s p o (some gn))).map
          (fun quad => quad.map (fun q =>
            ⟨q.subject, q.predicate, q.object, EncodedTerm.defaultGraph⟩)))).flatten := by
  simp only [DatasetView.encoded_quads_for_pattern_in_dataset, hds, map_iter,
    List.map_flatten, List.map_map, if_pos]
  congr 1
  congr 1
  funext gn
  simp [List.map_map, Function.comp]

/-- Witness for C2: the relabeled concatenation over the concrete restricted
view's two default graphs. -/
theorem c2_default_sentinel_relabel_witness :
    sampleViewRestricted.dataset = some sampleRestriction ∧
    sampleViewRestricted.encoded_quads_for_pattern_in_dataset none none none
        (some EncodedTerm.defaultGraph) =
      (sampleRestriction.default.map (fun gn =>
        (map_iter (sampleViewRestricted.store.encoded_quads_for_pattern none none none
            (some gn))).map
          (fun quad => quad.map (fun q =>
            ⟨q.subject, q.predicate, q.object, EncodedTerm.defaultGraph⟩)))).flatten :=
  ⟨rfl, c2_default_sentinel_relabel sampleViewRestricted sampleRestriction rfl none none none⟩

/-- C3: with a restriction configured and the graph position bound to a
concrete (non-sentinel) term, the result is the store's unrelabeled scan
when the term belongs to the restriction's named-graph list and empty
otherwise — membership in the default-graph list plays no role. -/
theorem c3_named_graph_membership {I : Type} [DecidableEq I] (v : DatasetView I)
    (ds : EncodedDatasetSpec I) (hds : v.dataset = some ds)
    (s p o : Option (EncodedTerm I)) (g : EncodedTerm I)
    (hg : g ≠ EncodedTerm.defaultGraph) :
    v.encoded_quads_for_pattern_in_dataset s p o (some g) =
      if g ∈ ds.named then
        map_iter (v.store.encoded_quads_for_pattern s p o (some g))
      else [] := by
  simp [DatasetView.encoded_quads_for_pattern_in_dataset, hds, hg]

/-- Witness for C3: graph 3 sits in the concrete restriction's default list
but not in its named list, and the scan is governed by the named list. -/
theorem c3_named_graph_membership_witness :
    (sampleViewRestricted.dataset = some sampleRestriction ∧
      (EncodedTerm.namedNode 3 : EncodedTerm Nat) ≠ EncodedTerm.defaultGraph) ∧
    sampleViewRestricted.encoded_quads_for_pattern_in_dataset none none none
        (some (EncodedTerm.namedNode 3)) =
      if (EncodedTerm.namedNode 3 : EncodedTerm Nat) ∈ sampleRestriction.named then
        map_iter (sampleViewRestricted.store.encoded_quads_for_pattern none none none
          (some (EncodedTerm.namedNode 3)))
      else [] :=
  ⟨⟨rfl, by decide⟩,
    c3_named_graph_membership sampleViewRestricted sampleRestriction rfl none none none
      (EncodedTerm.namedNode 3) (by decide)⟩

/-- C4: with a restriction configured and a wildcard graph position, the
result is the concatenation, in list order, of the store's unrelabeled scan
against each named-graph term; the default-graph list contributes nothing —
replacing it by any other list leaves the result unchanged. -/
theorem c4_wildcard_named_only {I : Type} [DecidableEq I] (v : DatasetView I)
    (ds : EncodedDatasetSpec I) (hds : v.dataset = some ds)
    (s p o : Option (EncodedTerm I)) :
    (v.encoded_quads_for_pattern_in_dataset s p o none =
      (ds.named.map (fun gn =>
        map_iter (v.store.encoded_quads_for_pattern s p o (some gn)))).flatten) ∧
    ∀ d_alt : List (EncodedTerm I),
      ({ v with dataset := some ⟨d_alt, ds.named⟩ } :
          DatasetView I).encoded_quads_for_pattern_in_dataset s p o none =
        v.encoded_quads_for_pattern_in_dataset s p o none := by
  constructor
  · simp only [DatasetView.encoded_quads_for_pattern_in_dataset, hds, map_iter,
      List.map_flatten, List.map_map]
    rfl
  · intro d_alt
    simp [DatasetView.encoded_quads_for_pattern_in_dataset, hds]

/-- Witness for C4: the wildcard scan over the concrete restricted view
ranges over its named graphs only. -/
theorem c4_wildcard_named_only_witness :
    sampleViewRestricted.dataset = some sampleRestriction ∧
    ((sampleViewRestricted.encoded_quads_for_pattern_in_dataset none none none none =
      (sampleRestriction.named.map (fun gn =>
        map_iter (sampleViewRestricted.store.encoded_quads_for_pattern none none none
          (some gn)))).flatten) ∧
    ∀ d_alt : List (EncodedTerm Nat),
      ({ sampleViewRestricted with dataset := some ⟨d_alt, sampleRestriction.named⟩ } :
          DatasetView Nat).encoded_quads_for_pattern_in_dataset none none none none =
        sampleViewRestricted.encoded_quads_for_pattern_in_dataset none none none none) :=
  ⟨rfl, c4_wildcard_named_only sampleViewRestricted sampleRestriction rfl none none none⟩

/-- C5: with no restriction configured, a wildcard-graph pattern resolves to
the store's wildcard scan with every successful quad whose graph is the
default-graph sentinel removed (so no such quad ever appears in the result),
while a bound graph position — the sentinel included — is passed to the
store unmodified with no filtering. -/
theorem c5_no_restriction {I : Type} [DecidableEq I] (v : DatasetView I)
    (hds : v.dataset = none) (s p o : Option (EncodedTerm I)) :
    (v.encoded_quads_for_pattern_in_dataset s p o none =
      map_iter ((v.store.encoded_quads_for_pattern s p o none).filter
        (fun t =>
          match t with
          | .error _ => true
          | .ok q => decide (q.graph_name ≠ EncodedTerm.defaultGraph)))) ∧
    (∀ q, Except.ok q ∈ v.encoded_quads_for_pattern_in_dataset s p o none →
      q.graph_name ≠ EncodedTerm.defaultGraph) ∧
    (∀ g : EncodedTerm I, v.encoded_quads_for_pattern_in_dataset s p o (some g) =
      map_iter (v.store.encoded_quads_for_pattern s p o (some g))) := by
  refine ⟨?_, ?_, ?_⟩
  · simp only [DatasetView.encoded_quads_for_pattern_in_dataset, hds, map_iter]
    rw [List.filter_map]
    congr 1
    congr 1
    funext t
    cases t with
    | error e => rfl
    | ok q =>
      show decide _ = decide _
      rw [decide_eq_decide]
      simp [Except.map, map_id_eq_defaultGraph]
  · intro q hq
    simp only [DatasetView.encoded_quads_for_pattern_in_dataset, hds] at hq
    rcases List.mem_filter.mp hq with ⟨-, hpred⟩
    simpa using hpred
  · intro g
    simp [DatasetView.encoded_quads_for_pattern_in_dataset, hds]

/-- Witness for C5: the unrestricted concrete view filters the sentinel quad
out of its wildcard scan and passes bound graphs through. -/
theorem c5_no_restriction_witness :
    sampleView.dataset = none ∧
    ((sampleView.encoded_quads_for_pattern_in_dataset none none none none =
      map_iter ((sampleView.store.encoded_quads_for_pattern none none none none).filter
        (fun t =>
          match t with
          | .error _ => true
          | .ok q => decide (q.graph_name ≠ EncodedTerm.defaultGraph)))) ∧
    (∀ q, Except.ok q ∈ sampleView.encoded_quads_for_pattern_in_dataset none none none none →
      q.graph_name ≠ EncodedTerm.defaultGraph) ∧
    (∀ g : EncodedTerm Nat,
      sampleView.encoded_quads_for_pattern_in_dataset none none none (some g) =
        map_iter (sampleView.store.encoded_quads_for_pattern none none none (some g)))) :=
  ⟨rfl, c5_no_restriction sampleView rfl none none none⟩

/-- C6: with union mode on and the downgraded graph position being exactly
the default-graph sentinel, the result is the dataset-aware resolution at
the sentinel concatenated with the dataset-aware resolution at wildcard, in
that order; the plain `++` performs no deduplication across the halves. -/
theorem c6_union_mode {I : Type} [DecidableEq I] (v : DatasetView I)
    (subject predicate object graph_name : Option (EncodedTerm (DatasetStrId I)))
    (s p o : Option (EncodedTerm I))
    (hu : v.default_graph_as_union = true)
    (h : try_map_quad_pattern subject predicate object graph_name =
      some (s, p, o, some EncodedTerm.defaultGraph)) :
    v.encoded_quads_for_pattern subject predicate object graph_name =
      v.encoded_quads_for_pattern_in_dataset s p o (some EncodedTerm.defaultGraph) ++
        v.encoded_quads_for_pattern_in_dataset s p o none := by
  simp [DatasetView.encoded_quads_for_pattern, h, hu]

/-- Witness for C6: the union-mode view resolves the sentinel-graph pattern
as the sentinel half followed by the wildcard half. -/
theorem c6_union_mode_witness :
    (sampleViewUnion.default_graph_as_union = true ∧
      try_map_quad_pattern (none : Option (EncodedTerm (DatasetStrId Nat))) none none
          (some EncodedTerm.defaultGraph) =
        some (none, none, none, some EncodedTerm.defaultGraph)) ∧
    sampleViewUnion.encoded_quads_for_pattern none none none
        (some EncodedTerm.defaultGraph) =
      sampleViewUnion.encoded_quads_for_pattern_in_dataset none none none
          (some EncodedTerm.defaultGraph) ++
        sampleViewUnion.encoded_quads_for_pattern_in_dataset none none none none :=
  ⟨⟨rfl, rfl⟩, c6_union_mode sampleViewUnion none none none
    (some EncodedTerm.defaultGraph) none none none rfl rfl⟩

/-- Resolving a list of terms with no store error collects exactly the
found ones, in input order, duplicates kept. -/
theorem collectResolved_ok {A B : Type} (f : A → Except StoreError (Option B))
    (l : List A) (h : ∀ a ∈ l, ∃ r, f a = .ok r) :
    collectResolved f l = .ok (l.filterMap (fun a => (f a).toOption.join)) := by
  induction l with
  | nil => simp [collectResolved]
  | cons a rest ih =>
    obtain ⟨r, hr⟩ := h a (List.mem_cons_self a rest)
    have ih' := ih (fun b hb => h b (List.mem_cons_of_mem a hb))
    cases r with
    | none => simp [collectResolved, hr, ih', Except.toOption, Option.join]
    | some b => simp [collectResolved, hr, ih', Except.toOption, Option.join, Except.map]

/-- Resolving a list of terms among which some term yields a store error
produces a store error. -/
theorem collectResolved_error {A B : Type} (f : A → Except StoreError (Option B))
    (l : List A) (h : ∃ a ∈ l, ∃ e, f a = .error e) :
    ∃ e, collectResolved f l = .error e := by
  induction l with
  | nil => simp at h
  | cons a rest ih =>
    by_cases ha : ∃ e, f a = .error e
    · obtain ⟨e, he⟩ := ha
      exact ⟨e, by simp [collectResolved, he]⟩
    · obtain ⟨b, hb, e, he⟩ := h
      rcases List.mem_cons.mp hb with rfl | hb'
      · exact absurd ⟨e, he⟩ ha
      · obtain ⟨e', he'⟩ := ih ⟨b, hb', e, he⟩
        cases hfa : f a with
        | error ea => exact ⟨ea, by simp [collectResolved, hfa]⟩
        | ok o =>
          cases o with
          | none => exact ⟨e', by simp [collectResolved, hfa, he']⟩
          | some c => exact ⟨e', by simp [collectResolved, hfa, he', Except.map]⟩

/-- C7: with non-empty explicit graph lists, construction resolves each term
against the store; when every lookup answers (found or not-found), the view
is built with the restriction holding exactly the found encodings in input
order (not-found terms silently skipped, duplicates kept, interner empty);
when some lookup yields a store error, construction aborts with an error
and no view is created. -/
theorem c7_new_resolution {I : Type} (store : Store I) (u : Bool)
    (dgs : List GraphName) (ngs : List NamedOrBlankNode) (ds : DatasetSpec)
    (hne : ¬ dgs.isEmpty = true ∨ ¬ ngs.isEmpty = true) :
    ((∀ g ∈ dgs, ∃ r, store.get_encoded_graph_name g = .ok r) →
      (∀ g ∈ ngs, ∃ r, store.get_encoded_named_or_blank_node g = .ok r) →
      DatasetView.new store u dgs ngs ds = .ok
        ⟨store, Rodeo.default, u,
          some ⟨dgs.filterMap (fun g => (store.get_encoded_graph_name g).toOption.join),
            ngs.filterMap (fun g =>
              (store.get_encoded_named_or_blank_node g).toOption.join)⟩⟩) ∧
    (((∃ g ∈ dgs, ∃ e, store.get_encoded_graph_name g = .error e) ∨
        (∃ g ∈ ngs, ∃ e, store.get_encoded_named_or_blank_node g = .error e)) →
      ∃ e, DatasetView.new store u dgs ngs ds = .error e) := by
  constructor
  · intro hd hn
    simp only [DatasetView.new]
    rw [if_pos hne, collectResolved_ok _ _ hd, collectResolved_ok _ _ hn]
    rfl
  · intro herr
    rcases herr with hderr | hnerr
    · obtain ⟨e, he⟩ := collectResolved_error store.get_encoded_graph_name dgs hderr
      refine ⟨.store e, ?_⟩
      simp only [DatasetView.new]
      rw [if_pos hne, he]
      rfl
    · obtain ⟨e, he⟩ :=
        collectResolved_error store.get_encoded_named_or_blank_node ngs hnerr
      cases hdg : collectResolved store.get_encoded_graph_name dgs with
      | error e' =>
        refine ⟨.store e', ?_⟩
        simp only [DatasetView.new]
        rw [if_pos hne, hdg]
        rfl
      | ok dflt =>
        refine ⟨.store e, ?_⟩
        simp only [DatasetView.new]
        rw [if_pos hne, hdg, he]
        rfl

/-- Witness for C7: of the two requested default graphs one resolves and one
is unknown; the built restriction holds exactly the resolved encoding. -/
theorem c7_new_resolution_witness :
    (¬ ([(⟨"g1"⟩ : GraphName), ⟨"gX"⟩] : List GraphName).isEmpty = true ∨
      ¬ ([⟨"g1"⟩] : List NamedOrBlankNode).isEmpty = true) ∧
    (((∀ g ∈ ([⟨"g1"⟩, ⟨"gX"⟩] : List GraphName), ∃ r,
        sampleStore.get_encoded_graph_name g = .ok r) →
      (∀ g ∈ ([⟨"g1"⟩] : List NamedOrBlankNode), ∃ r,
        sampleStore.get_encoded_named_or_blank_node g = .ok r) →
      DatasetView.new sampleStore false [⟨"g1"⟩, ⟨"gX"⟩] [⟨"g1"⟩] ⟨[], []⟩ = .ok
        ⟨sampleStore, Rodeo.default, false,
          some ⟨([⟨"g1"⟩, ⟨"gX"⟩] : List GraphName).filterMap (fun g =>
              (sampleStore.get_encoded_graph_name g).toOption.join),
            ([⟨"g1"⟩] : List NamedOrBlankNode).filterMap (fun g =>
              (sampleStore.get_encoded_named_or_blank_node g).toOption.join)⟩⟩) ∧
    (((∃ g ∈ ([⟨"g1"⟩, ⟨"gX"⟩] : List GraphName), ∃ e,
          sampleStore.get_encoded_graph_name g = .error e) ∨
        (∃ g ∈ ([⟨"g1"⟩] : List NamedOrBlankNode), ∃ e,
          sampleStore.get_encoded_named_or_blank_node g = .error e)) →
      ∃ e, DatasetView.new sampleStore false [⟨"g1"⟩, ⟨"gX"⟩] [⟨"g1"⟩] ⟨[], []⟩ =
        .error e)) :=
  ⟨Or.inl (by simp), c7_new_resolution sampleStore false [⟨"g1"⟩, ⟨"gX"⟩] [⟨"g1"⟩]
    ⟨[], []⟩ (Or.inl (by simp))⟩

/-- Appending a fresh string to the interner table places it at the old
length. -/
theorem lookupIdx_append_self (l : List String) (v : String)
    (h : lookupIdx l v = none) : lookupIdx (l ++ [v]) v = some l.length := by
  induction l with
  | nil => simp [lookupIdx]
  | cons a rest ih =>
    by_cases ha : a = v
    · simp [lookupIdx, ha] at h
    · simp only [lookupIdx, ha, if_false] at h
      rw [Option.map_eq_none'] at h
      simp [lookupIdx, ha, ih h]

/-- Interning twice is idempotent on the interner state and the handle. -/
theorem get_or_intern_idem (r : Rodeo) (value : String) :
    (r.get_or_intern value).2.get_or_intern value =
      ((r.get_or_intern value).1, (r.get_or_intern value).2) := by
  unfold Rodeo.get_or_intern
  cases h : lookupIdx r.strings value with
  | some i => simp [h]
  | none => simp [h, lookupIdx_append_self r.strings value h]

/-- In a duplicate-free interner table, the handle resolving to a string is
the handle the lookup returns for that string. -/
theorem lookupIdx_of_getElem (l : List String) (n : Nat) (v : String)
    (hnd : l.Nodup) (h : l.get? n = some v) : lookupIdx l v = some n := by
  induction l generalizing n with
  | nil => simp at h
  | cons a rest ih =>
    cases n with
    | zero =>
      rw [List.get?_cons_zero] at h
      injection h with h
      subst h
      simp [lookupIdx]
    | succ m =>
      rw [List.get?_cons_succ] at h
      rw [List.nodup_cons] at hnd
      have hne : ¬ a = v := by
        intro e
        subst e
        exact hnd.1 (List.get?_mem h)
      simp [lookupIdx, hne, ih m hnd.2 h]

/-- C8: `insert_str` consults the persistent store first: a store-known
string yields the `Store` identifier (never a Temporary one, with no
interner change); a store-unknown string yields a `Temporary` identifier;
and interning the same string a second time on the resulting view returns
the identical identifier with the view unchanged. -/
theorem c8_insert_str_intern {I : Type} (v : DatasetView I) (value : String) :
    (∀ i, v.store.get_str_id value = .ok (some i) →
      v.insert_str value = .ok (.Store i, v)) ∧
    (v.store.get_str_id value = .ok none →
      ∃ t v', v.insert_str value = .ok (.Temporary t, v')) ∧
    (∀ id v', v.insert_str value = .ok (id, v') →
      v'.insert_str value = .ok (id, v')) := by
  refine ⟨?_, ?_, ?_⟩
  · intro i h
    simp [DatasetView.insert_str, h]
  · intro h
    refine ⟨(v.extra.get_or_intern value).1,
      { v with extra := (v.extra.get_or_intern value).2 }, ?_⟩
    simp [DatasetView.insert_str, h]
  · intro id v' h
    cases hsi : v.store.get_str_id value with
    | error e => simp [DatasetView.insert_str, hsi] at h
    | ok o =>
      cases o with
      | some i =>
        simp [DatasetView.insert_str, hsi] at h
        obtain ⟨rfl, rfl⟩ := h
        simp [DatasetView.insert_str, hsi]
      | none =>
        simp [DatasetView.insert_str, hsi] at h
        obtain ⟨rfl, rfl⟩ := h
        have hstore : ({ v with extra := (v.extra.get_or_intern value).2 } :
            DatasetView I).store = v.store := rfl
        simp [DatasetView.insert_str, hstore, hsi, get_or_intern_idem]

/-- Witness for C8: on a fresh unrestricted view, the store-known string
"known" interns to its `Store` identifier, the novel string "novel" to a
`Temporary` one, and re-interning "novel" returns the same handle. -/
theorem c8_insert_str_intern_witness :
    ((∀ i, sampleView.store.get_str_id "known" = .ok (some i) →
      sampleView.insert_str "known" = .ok (.Store i, sampleView)) ∧
    (sampleView.store.get_str_id "known" = .ok none →
      ∃ t v', sampleView.insert_str "known" = .ok (.Temporary t, v')) ∧
    (∀ id v', sampleView.insert_str "known" = .ok (id, v') →
      v'.insert_str "known" = .ok (id, v'))) ∧
    ((∀ i, sampleView.store.get_str_id "novel" = .ok (some i) →
      sampleView.insert_str "novel" = .ok (.Store i, sampleView)) ∧
    (sampleView.store.get_str_id "novel" = .ok none →
      ∃ t v', sampleView.insert_str "novel" = .ok (.Temporary t, v')) ∧
    (∀ id v', sampleView.insert_str "novel" = .ok (id, v') →
      v'.insert_str "novel" = .ok (id, v'))) :=
  ⟨c8_insert_str_intern sampleView "known", c8_insert_str_intern sampleView "novel"⟩

/-- C9: on a view whose interner is duplicate-free and only holds strings
the store does not know, and over a store whose two string-lookup directions
are mutually consistent, any identifier — `Store` or `Temporary` — whose
`get_str` lookup succeeds re-interns via `insert_str` to the very same
identifier, leaving the view unchanged. -/
theorem c9_round_trip {I : Type} (v : DatasetView I)
    (hcons : v.store.StrConsistent) (hwf : v.WellFormedInterner)
    (id : DatasetStrId I) (s : String)
    (h : v.get_str id = .ok (some s)) :
    v.insert_str s = .ok (id, v) := by
  cases id with
  | Store i =>
    have hs : v.store.get_str i = .ok (some s) := by
      cases hg : v.store.get_str i with
      | error e => simp [DatasetView.get_str, hg, Except.mapError] at h
      | ok o =>
        simp [DatasetView.get_str, hg, Except.mapError] at h
        rw [h]
    simp [DatasetView.insert_str, hcons i s hs]
  | Temporary t =>
    have hres : v.extra.strings.get? t = some s := by
      simpa [DatasetView.get_str, Rodeo.try_resolve] using h
    have hnone : v.store.get_str_id s = .ok none :=
      hwf.2 s (List.get?_mem hres)
    have hidx : lookupIdx v.extra.strings s = some t :=
      lookupIdx_of_getElem v.extra.strings t s hwf.1 hres
    simp [DatasetView.insert_str, hnone, Rodeo.get_or_intern, hidx]

/-- Witness for C9: on a concrete consistent view holding the novel string,
both the Temporary handle of "novel" and the Store identifier of "known"
round-trip through `get_str` and `insert_str`. -/
theorem c9_round_trip_witness :
    (sampleViewInterned.store.StrConsistent ∧
      sampleViewInterned.WellFormedInterner ∧
      sampleViewInterned.get_str (DatasetStrId.Temporary 0) = .ok (some "novel")) ∧
    sampleViewInterned.insert_str "novel" =
      .ok (DatasetStrId.Temporary 0, sampleViewInterned) := by
  have hc : sampleViewInterned.store.StrConsistent := by
    intro i s h
    by_cases hi : i = 5
    · subst hi
      simp [sampleViewInterned, sampleStore] at h
      subst h
      simp [sampleViewInterned, sampleStore]
    · simp [sampleViewInterned, sampleStore, hi] at h
  have hwf : sampleViewInterned.WellFormedInterner := by
    refine ⟨by simp [sampleViewInterned], ?_⟩
    intro s hs
    simp [sampleViewInterned] at hs
    subst hs
    simp [sampleViewInterned, sampleStore]
  exact ⟨⟨hc, hwf, rfl⟩,
    c9_round_trip sampleViewInterned hc hwf (DatasetStrId.Temporary 0) "novel" rfl⟩

/-- A view whose restriction is configured but has empty default and named
lists answers every pattern with the empty sequence. -/
theorem in_dataset_empty {I : Type} [DecidableEq I] (v : DatasetView I)
    (h : v.dataset = some ⟨[], []⟩) (s p o : Option (EncodedTerm I))
    (g : Option (EncodedTerm I)) :
    v.encoded_quads_for_pattern_in_dataset s p o g = [] := by
  cases g with
  | none => simp [DatasetView.encoded_quads_for_pattern_in_dataset, h, map_iter]
  | some g' =>
    by_cases hg : g' = EncodedTerm.defaultGraph <;>
      simp [DatasetView.encoded_quads_for_pattern_in_dataset, h, hg, map_iter]

/-- A view whose restriction is configured but empty answers every
top-level pattern query with the empty sequence. -/
theorem encoded_quads_empty_restriction {I : Type} [DecidableEq I]
    (v : DatasetView I) (h : v.dataset = some ⟨[], []⟩)
    (subject predicate object graph_name : Option (EncodedTerm (DatasetStrId I))) :
    v.encoded_quads_for_pattern subject predicate object graph_name = [] := by
  unfold DatasetView.encoded_quads_for_pattern
  cases htm : try_map_quad_pattern subject predicate object graph_name with
  | none => rfl
  | some q =>
    obtain ⟨s, p, o, g⟩ := q
    by_cases hc : g = some EncodedTerm.defaultGraph ∧ v.default_graph_as_union = true <;>
      simp [hc, in_dataset_empty v h]

/-- C10: when every supplied graph term of the non-empty explicit lists is
unknown to the store, construction still succeeds and the restriction is
configured with two empty lists; every subsequent pattern query — the
wildcard-graph one included — then returns the empty sequence instead of
falling back to the unrestricted scan. -/
theorem c10_all_unresolved_empty {I : Type} [DecidableEq I] (store : Store I)
    (u : Bool) (dgs : List GraphName) (ngs : List NamedOrBlankNode)
    (ds : DatasetSpec)
    (hne : ¬ dgs.isEmpty = true ∨ ¬ ngs.isEmpty = true)
    (hd : ∀ g ∈ dgs, store.get_encoded_graph_name g = .ok none)
    (hn : ∀ g ∈ ngs, store.get_encoded_named_or_blank_node g = .ok none) :
    ∃ v : DatasetView I, DatasetView.new store u dgs ngs ds = .ok v ∧
      v.dataset = some ⟨[], []⟩ ∧
      ∀ subject predicate object graph_name,
        v.encoded_quads_for_pattern subject predicate object graph_name = [] := by
  have hdflt : collectResolved store.get_encoded_graph_name dgs = .ok [] := by
    rw [collectResolved_ok _ _ (fun g hg => ⟨none, hd g hg⟩)]
    congr 1
    rw [List.filterMap_eq_nil_iff]
    intro g hg
    simp [hd g hg, Except.toOption, Option.join]
  have hnmd : collectResolved store.get_encoded_named_or_blank_node ngs = .ok [] := by
    rw [collectResolved_ok _ _ (fun g hg => ⟨none, hn g hg⟩)]
    congr 1
    rw [List.filterMap_eq_nil_iff]
    intro g hg
    simp [hn g hg, Except.toOption, Option.join]
  refine ⟨⟨store, Rodeo.default, u, some ⟨[], []⟩⟩, ?_, rfl,
    encoded_quads_empty_restriction _ rfl⟩
  simp only [DatasetView.new]
  rw [if_pos hne, hdflt, hnmd]
  rfl

/-- Witness for C10: requesting only the unknown graph "gX" yields a view
with an empty configured restriction whose every query is empty. -/
theorem c10_all_unresolved_empty_witness :
    ((¬ ([(⟨"gX"⟩ : GraphName)] : List GraphName).isEmpty = true ∨
      ¬ ([] : List NamedOrBlankNode).isEmpty = true) ∧
    (∀ g ∈ ([⟨"gX"⟩] : List GraphName),
      sampleStore.get_encoded_graph_name g = .ok none) ∧
    (∀ g ∈ ([] : List NamedOrBlankNode),
      sampleStore.get_encoded_named_or_blank_node g = .ok none)) ∧
    ∃ v : DatasetView Nat,
      DatasetView.new sampleStore false [⟨"gX"⟩] [] ⟨[], []⟩ = .ok v ∧
      v.dataset = some ⟨[], []⟩ ∧
      ∀ subject predicate object graph_name,
        v.encoded_quads_for_pattern subject predicate object graph_name = [] := by
  have hd : ∀ g ∈ ([⟨"gX"⟩] : List GraphName),
      sampleStore.get_encoded_graph_name g = .ok none := by
    intro g hg
    simp at hg
    subst hg
    simp [sampleStore]
  have hn : ∀ g ∈ ([] : List NamedOrBlankNode),
      sampleStore.get_encoded_named_or_blank_node g = .ok none := by
    intro g hg
    simp at hg
  exact ⟨⟨Or.inl (by simp), hd, hn⟩,
    c10_all_unresolved_empty sampleStore false [⟨"gX"⟩] [] ⟨[], []⟩
      (Or.inl (by simp)) hd hn⟩

end Oxi
